import Mathlib

/-!
Verification model of the thunder-swap atomic-swap engine.

Buffers are modelled as lists of byte values (`List Nat`), hex strings as
Lean `String`s, JavaScript numbers as `ℤ`/`ℕ` (for integers) or `ℚ` (for
the BTC amounts the Bitcoin node reports), and fallible functions as
`Except String` (each `throw new Error(msg)` becomes `.error msg`).
External cryptographic libraries (node `crypto`, `tiny-secp256k1`) are a
parameter `CryptoPrims`; external I/O (Bitcoin RPC, RLN, key derivation
from WIF) is a parameter of the respective model and calls are recorded
in an explicit event list where a claim needs them observable.
-/

namespace ThunderSwap

/-! ### Byte and hex primitives -/

def hexDigitVal (c : Char) : Option Nat :=
  if 48 ≤ c.toNat ∧ c.toNat ≤ 57 then some (c.toNat - 48)
  else if 97 ≤ c.toNat ∧ c.toNat ≤ 102 then some (c.toNat - 87)
  else if 65 ≤ c.toNat ∧ c.toNat ≤ 70 then some (c.toNat - 55)
  else none

def isHexDigit (c : Char) : Bool := (hexDigitVal c).isSome

/-- Model of `Buffer.from(hex, 'hex')`: consume pairs of hex digits,
stopping at the first invalid pair or an unpaired trailing digit. -/
def hexToBytes : List Char → List Nat
  | c1 :: c2 :: rest =>
    match hexDigitVal c1, hexDigitVal c2 with
    | some hi, some lo => (16 * hi + lo) :: hexToBytes rest
    | _, _ => []
  | _ => []

def hexDigitChar (n : Nat) : Char :=
  if n < 10 then Char.ofNat (48 + n) else Char.ofNat (87 + n)

/-- One byte printed as two lowercase hex digits, as node's
`buf.toString('hex')` does. -/
def byteToHex (b : Nat) : List Char := [hexDigitChar (b % 256 / 16), hexDigitChar (b % 16)]

def bytesToHex (bs : List Nat) : List Char := bs.flatMap byteToHex

/-- Model of JavaScript `s.toLowerCase()` on hex strings. -/
def lowerChars (l : List Char) : List Char := l.map Char.toLower

/-- UTF-8 bytes of an ASCII string (every constant this model encodes is
ASCII, where UTF-8 agrees with the code points). -/
def utf8Bytes (s : String) : List Nat := s.data.map Char.toNat

/-- Model of JavaScript `hay.includes(needle)` on strings. -/
def strContains (hay needle : List Char) : Bool :=
  (List.range (hay.length + 1)).any fun i => ((hay.drop i).take needle.length) == needle

def isHexOfLength (l : List Char) (n : Nat) : Bool :=
  l.length == n && l.all isHexDigit

/-! ### Little-endian byte encodings -/

def natToLEAux : Nat → Nat → List Nat
  | 0, _ => []
  | fuel + 1, n => if n = 0 then [] else (n % 256) :: natToLEAux fuel (n / 256)

/-- Little-endian base-256 digits of a number; eight bytes of fuel cover
every JavaScript safe integer (all inputs are below 2^53). -/
def natToLE (n : Nat) : List Nat := natToLEAux 8 n

def natToLE4 (n : Nat) : List Nat :=
  [n % 256, n / 256 % 256, n / 65536 % 256, n / 16777216 % 256]

def be32 (n : Nat) : List Nat :=
  [n / 16777216 % 256, n / 65536 % 256, n / 256 % 256, n % 256]

/-! ### Bitcoin script compilation (the fragment of bitcoinjs-lib
`script.compile` / `script.number.encode` the HTLC builder uses) -/

/-- Model of compiling one data chunk in bitcoinjs `script.compile`:
minimal opcodes for the empty buffer, single bytes 1..16 and 0x81,
otherwise a minimal push. -/
def compilePush (b : List Nat) : List Nat :=
  match b with
  | [] => [0]
  | [x] =>
    if 1 ≤ x ∧ x ≤ 16 then [80 + x]
    else if x = 129 then [79]
    else [1, x]
  | _ =>
    if b.length < 76 then b.length :: b
    else if b.length ≤ 255 then 76 :: b.length :: b
    else if b.length ≤ 65535 then 77 :: b.length % 256 :: b.length / 256 % 256 :: b
    else 78 :: natToLE4 b.length ++ b

/-- Model of `bitcoin.script.number.encode` for the non-negative values
the refund leaf uses (the builder rejects negative `cltv_expiry` before
encoding): minimal little-endian, with a sign byte when the top bit of
the last byte is set. -/
def scriptNumEncode (n : Nat) : List Nat :=
  if n = 0 then []
  else
    let bytes := natToLE n
    if 128 ≤ bytes.getLastD 0 then bytes ++ [0] else bytes

/-- BIP-341 `ser_string`: compact-size length prefix followed by the
script bytes. -/
def serString (s : List Nat) : Except String (List Nat) :=
  if s.length < 253 then .ok (s.length :: s)
  else if s.length ≤ 65535 then .ok (253 :: s.length % 256 :: s.length / 256 % 256 :: s)
  else if s.length ≤ 4294967295 then .ok (254 :: natToLE4 s.length ++ s)
  else .error ("Script too long")

/-! ### Abstract cryptographic primitives -/

/-- The external cryptographic library surface used by the engine:
SHA-256 from node `crypto` and the point operations of
`tiny-secp256k1`. -/
structure CryptoPrims where
  sha256 : List Nat → List Nat
  isPoint : List Nat → Bool
  isPointCompressed : List Nat → Bool
  isXOnlyPoint : List Nat → Bool
  xOnlyPointFromPoint : List Nat → List Nat
  xOnlyPointAddTweak : List Nat → List Nat → Option (List Nat)

/-- BIP-340 tagged hash as bitcoinjs `crypto.taggedHash` computes it:
`sha256(sha256(tag) || sha256(tag) || data)`. -/
def taggedHash (C : CryptoPrims) (tag : String) (data : List Nat) : List Nat :=
  C.sha256 (C.sha256 (utf8Bytes tag) ++ C.sha256 (utf8Bytes tag) ++ data)

/-! ### src/utils/crypto.ts -/

def sha256hex (C : CryptoPrims) (buf : List Nat) : List Char :=
  bytesToHex (C.sha256 buf)

def assertValidPaymentHash (paymentHashHex : String) : Except String Unit :=
  if isHexOfLength paymentHashHex.data 64 then .ok ()
  else .error ("Payment hash must be 64-character hex string (32 bytes)")

def startsWith02or03 : List Char → Bool
  | '0' :: '2' :: _ => true
  | '0' :: '3' :: _ => true
  | _ => false

def assertValidCompressedPubkey (C : CryptoPrims) (pubkeyHex : String) (label : String) :
    Except String Unit :=
  if ¬ (isHexOfLength pubkeyHex.data 66 = true) then
    .error (label ++ " pubkey must be 33-byte compressed (66 hex chars starting with 02/03)")
  else if ¬ (startsWith02or03 pubkeyHex.data = true) then
    .error (label ++ " pubkey must be 33-byte compressed (66 hex chars starting with 02/03)")
  else
    let pubkey := hexToBytes pubkeyHex.data
    if ¬ (C.isPoint pubkey = true ∧ C.isPointCompressed pubkey = true) then
      .error (label ++ " pubkey is not a valid secp256k1 point")
    else .ok ()

/-- `getXOnlyHex`: drop the 02/03 prefix byte and re-encode as hex. -/
def getXOnlyHex (compressedPubkeyHex : String) : List Char :=
  bytesToHex ((hexToBytes compressedPubkeyHex.data).drop 1)

/-! ### src/bitcoin/htlc_p2tr.ts -/

def INTERNAL_KEY_CONSTANT : String := "HODL_INVOICE_P2TR_HTLC_INTERNAL_KEY_v0"

def INTERNAL_KEY_MAX_ATTEMPTS : Nat := 256

def TAPLEAF_VERSION : Nat := 192

structure P2TRHTLCTemplate where
  payment_hash : String
  lp_pubkey : String
  user_pubkey : String
  cltv_expiry : ℤ

/-- `assertValidCltvExpiry`: a safe non-negative integer of at most
0xffffffff (`ℤ` already excludes the NaN/fractional cases of a
JavaScript number). -/
def assertValidCltvExpiry (cltvExpiry : ℤ) : Except String Unit :=
  if cltvExpiry < 0 ∨ 9007199254740991 < cltvExpiry then
    .error ("cltv_expiry must be a non-negative integer")
  else if 4294967295 < cltvExpiry then
    .error ("cltv_expiry must be <= 0xffffffff")
  else .ok ()

def toXOnlyPubkey (C : CryptoPrims) (pubkeyHex : String) (label : String) :
    Except String (List Nat) := do
  _ ← assertValidCompressedPubkey C pubkeyHex label
  let pubkey := hexToBytes pubkeyHex.data
  let xOnly := C.xOnlyPointFromPoint pubkey
  if C.isXOnlyPoint xOnly = true then .ok xOnly
  else .error (label ++ " pubkey is not a valid x-only key")

/-- Claim leaf: `OP_SHA256 <H> OP_EQUALVERIFY <lpPubkeyXOnly> OP_CHECKSIG`. -/
def buildClaimTapscript (C : CryptoPrims) (paymentHashHex lpPubkeyHex : String) :
    Except String (List Nat) := do
  _ ← assertValidPaymentHash paymentHashHex
  let H := hexToBytes paymentHashHex.data
  let lpPubkey ← toXOnlyPubkey C lpPubkeyHex ("LP")
  .ok ([168] ++ compilePush H ++ [136] ++ compilePush lpPubkey ++ [172])

/-- Refund leaf: `<tLock> OP_CHECKLOCKTIMEVERIFY OP_DROP <userPubkeyXOnly>
OP_CHECKSIG`. -/
def buildRefundTapscript (C : CryptoPrims) (cltvExpiry : ℤ) (userPubkeyHex : String) :
    Except String (List Nat) := do
  _ ← assertValidCltvExpiry cltvExpiry
  let userPubkey ← toXOnlyPubkey C userPubkeyHex ("User")
  let lockTimeBuffer := scriptNumEncode cltvExpiry.toNat
  .ok (compilePush lockTimeBuffer ++ [177, 117] ++ compilePush userPubkey ++ [172])

def computeTapLeafHash (C : CryptoPrims) (script : List Nat) (leafVersion : Nat) :
    Except String (List Nat) := do
  let serialized ← serString script
  .ok (taggedHash C ("TapLeaf") (leafVersion :: serialized))

/-- Node `Buffer.compare`: lexicographic byte order, a strict prefix
sorting first. -/
def bufCompare : List Nat → List Nat → Int
  | [], [] => 0
  | [], _ :: _ => -1
  | _ :: _, [] => 1
  | a :: as, b :: bs => if a < b then -1 else if b < a then 1 else bufCompare as bs

def computeTaprootTreeRoot (C : CryptoPrims) (leafHashes : List (List Nat)) :
    Except String (List Nat) :=
  match leafHashes with
  | [] => .error ("Taproot tree requires at least one leaf")
  | [h] => .ok h
  | [h0, h1] =>
    let sorted := if bufCompare h0 h1 ≤ 0 then (h0, h1) else (h1, h0)
    .ok (taggedHash C ("TapBranch") (sorted.1 ++ sorted.2))
  | _ => .error ("Taproot tree supports exactly two leaves for this HTLC")

def computeTapTweak (C : CryptoPrims) (internalKey treeRoot : List Nat) :
    Except String (List Nat) :=
  if ¬ (internalKey.length = 32 ∧ C.isXOnlyPoint internalKey = true) then
    .error ("Invalid internal key for TapTweak")
  else if ¬ (treeRoot.length = 32) then
    .error ("Invalid Taproot tree root")
  else .ok (taggedHash C ("TapTweak") (internalKey ++ treeRoot))

def computeTaprootOutputKey (C : CryptoPrims) (internalKey treeRoot : List Nat) :
    Except String (List Nat) := do
  let tapTweak ← computeTapTweak C internalKey treeRoot
  match C.xOnlyPointAddTweak internalKey tapTweak with
  | some k => .ok k
  | none => .error ("Failed to compute Taproot output key")

def internalKeyCandidate (C : CryptoPrims) (attempt : Nat) : List Nat :=
  let seed := utf8Bytes INTERNAL_KEY_CONSTANT
  C.sha256 (if attempt = 0 then seed else seed ++ be32 attempt)

/-- The derivation loop of `deriveDeterministicInternalKey`, attempts
counting up, remaining fuel counting down. -/
def deriveLoop (C : CryptoPrims) : Nat → Nat → Except String (List Nat)
  | 0, _ => .error ("Failed to derive deterministic internal key")
  | fuel + 1, attempt =>
    if C.isXOnlyPoint (internalKeyCandidate C attempt) = true then
      .ok (internalKeyCandidate C attempt)
    else deriveLoop C fuel (attempt + 1)

def deriveDeterministicInternalKey (C : CryptoPrims) : Except String (List Nat) :=
  deriveLoop C INTERNAL_KEY_MAX_ATTEMPTS 0

/-- `reconstructP2TRScriptPubKey`: rebuild both tapleaves, derive the
internal key, hash the tree and emit `OP_1 <outputKey>`. -/
def reconstructP2TRScriptPubKey (C : CryptoPrims) (template : P2TRHTLCTemplate) :
    Except String (List Nat) := do
  let claimScript ← buildClaimTapscript C template.payment_hash template.lp_pubkey
  let refundScript ← buildRefundTapscript C template.cltv_expiry template.user_pubkey
  let internalKey ← deriveDeterministicInternalKey C
  let claimLeafHash ← computeTapLeafHash C claimScript TAPLEAF_VERSION
  let refundLeafHash ← computeTapLeafHash C refundScript TAPLEAF_VERSION
  let treeRoot ← computeTaprootTreeRoot C [claimLeafHash, refundLeafHash]
  let outputKey ← computeTaprootOutputKey C internalKey treeRoot
  .ok ([81] ++ compilePush outputKey)

/-- `buildP2TRHTLC`: same leaves and internal key; the bech32m address
itself comes from the external payments library (`addressFromLib`,
mirroring `p2tr.address`, which the code checks for `undefined`). -/
def buildP2TRHTLC (C : CryptoPrims) (addressFromLib : Option String)
    (paymentHashHex lpPubkeyHex userPubkeyHex : String) (cltvExpiry : ℤ) :
    Except String (String × List Char) := do
  let _claimScript ← buildClaimTapscript C paymentHashHex lpPubkeyHex
  let _refundScript ← buildRefundTapscript C cltvExpiry userPubkeyHex
  let internalKey ← deriveDeterministicInternalKey C
  let internalKeyHex := bytesToHex internalKey
  match addressFromLib with
  | none => .error ("Failed to generate P2TR address")
  | some addr => .ok (addr, internalKeyHex)

/-! ### JavaScript numeric conversions

`Math.round` / `Math.ceil` on the exact rational values the arithmetic
produces, in an executable normal form (`Rat.divInt` / integer division);
the bridge lemmas `jsRound_eq_round`, `jsCeil_eq_ceil` and `qMulConst_eq`
below identify them with Mathlib's `round`, `Int.ceil` and `*`. -/

/-- `Math.round q` = `⌊q + 1/2⌋`, computed on the numerator and
denominator. -/
def jsRound (q : ℚ) : ℤ := (2 * q.num + (q.den : ℤ)) / (2 * (q.den : ℤ))

/-- `Math.ceil q` = `⌈q⌉`, computed on the numerator and denominator. -/
def jsCeil (q : ℚ) : ℤ := -((-q.num) / (q.den : ℤ))

/-- The rational `(a / b) * r` in executable normal form. -/
def qMulConst (a : ℤ) (b : ℕ) (r : ℚ) : ℚ := Rat.divInt (a * r.num) ((b : ℤ) * (r.den : ℤ))

/-! ### src/bitcoin/verify_p2tr.ts -/

/-- `msatToSat`: `Math.ceil(msat / 1000)`. -/
def msatToSat (msat : Nat) : Nat := (msat + 999) / 1000

/-- The `confirmations` field of `getrawtransaction`; `none` models an
absent field (JavaScript `undefined`). -/
structure TxDetails where
  confirmations : Option ℤ
  deriving DecidableEq

/-- The output shape `{value, scriptPubKey}` the verifier reads: `value`
in BTC, `scriptPubKey.hex` as reported by the node. -/
structure TxOutput where
  value : ℚ
  scriptPubKeyHex : String
  deriving DecidableEq

/-- Modelled from the spec: `rpc.getTransactionOutput` lives in
src/bitcoin/rpc.ts, which is not among the sources; §4.11 specifies only
its shape, `getTransactionOutput(txid, vout, {expectedScriptPubKeyHex,
requireUnspent}) → {value, scriptPubKey}`, with no failure semantics of
its own, so the model takes the fetch outcome as an environment value. -/
def getTransactionOutputModel (result : Except String TxOutput) : Except String TxOutput :=
  result

/-- One constructor per `throw` site of `verifyFundingTransaction`, in
source order, carrying the data its message interpolates. -/
inductive VerifyError where
  | pubkeyInvalid (msg : String)
  | fetchTxFailed (txid msg : String)
  | notConfirmed (confs required : ℤ)
  | scriptBuildFailed (msg : String)
  | emptyScripts
  | templateMismatch (msg : String)
  | reconstructFailed (msg : String)
  | outputFetchFailed (txid : String) (vout : Nat) (msg : String)
  | amountTooLow (amountSat invoiceSat : ℤ)
  | notP2tr (len firstByte : Nat)
  | scriptPubKeyMismatch (expectedHex gotHex : List Char)
  deriving DecidableEq

structure FundingTransactionInfo where
  txid : String
  vout : Nat

structure P2TRHTLCIdentification where
  txid : String
  vout : Nat
  amount_sat : ℤ
  confirmations : ℤ
  script_pubkey_hex : List Char
  expected_script_pubkey_hex : List Char
  deriving DecidableEq

/-- `verifyFundingTransaction` of src/bitcoin/verify_p2tr.ts, with the
two node fetches supplied as environment values. -/
def verifyFundingTransaction (C : CryptoPrims)
    (getRawTransaction : Except String TxDetails)
    (getTransactionOutput : Except String TxOutput)
    (fundingInfo : FundingTransactionInfo) (template : P2TRHTLCTemplate)
    (invoiceAmountMsat : Nat) (minConfs : ℤ) :
    Except VerifyError P2TRHTLCIdentification :=
  match assertValidCompressedPubkey C template.lp_pubkey ("LP") with
  | .error e => .error (.pubkeyInvalid e)
  | .ok _ =>
  match assertValidCompressedPubkey C template.user_pubkey ("User") with
  | .error e => .error (.pubkeyInvalid e)
  | .ok _ =>
  match getRawTransaction with
  | .error e => .error (.fetchTxFailed fundingInfo.txid e)
  | .ok txDetails =>
  -- `!txDetails.confirmations || txDetails.confirmations < minConfs`
  if txDetails.confirmations.getD 0 = 0 ∨ txDetails.confirmations.getD 0 < minConfs then
    .error (.notConfirmed (txDetails.confirmations.getD 0) minConfs)
  else
  let confirmations := txDetails.confirmations.getD 0
  match buildClaimTapscript C template.payment_hash template.lp_pubkey with
  | .error e => .error (.scriptBuildFailed e)
  | .ok expectedClaimScript =>
  match buildRefundTapscript C template.cltv_expiry template.user_pubkey with
  | .error e => .error (.scriptBuildFailed e)
  | .ok expectedRefundScript =>
  if expectedClaimScript.length = 0 ∨ expectedRefundScript.length = 0 then
    .error .emptyScripts
  else
  let paymentHashHex := lowerChars template.payment_hash.data
  let lpPubkeyXOnly := getXOnlyHex template.lp_pubkey
  let userPubkeyXOnly := getXOnlyHex template.user_pubkey
  let claimHex := lowerChars (bytesToHex expectedClaimScript)
  let refundHex := lowerChars (bytesToHex expectedRefundScript)
  if ¬ (strContains claimHex paymentHashHex = true) then
    .error (.templateMismatch ("Claim tapscript does not include expected payment hash"))
  else if ¬ (strContains claimHex lpPubkeyXOnly = true) then
    .error (.templateMismatch ("Claim tapscript does not include expected LP pubkey (x-only)"))
  else if ¬ (strContains refundHex userPubkeyXOnly = true) then
    .error (.templateMismatch ("Refund tapscript does not include expected user pubkey (x-only)"))
  else
  match reconstructP2TRScriptPubKey C template with
  | .error e => .error (.reconstructFailed e)
  | .ok expectedScriptPubKey =>
  let expectedScriptPubKeyHex := bytesToHex expectedScriptPubKey
  match getTransactionOutputModel getTransactionOutput with
  | .error e => .error (.outputFetchFailed fundingInfo.txid fundingInfo.vout e)
  | .ok output =>
  -- `Math.round(output.value * 100000000)`
  let amountSat := jsRound (qMulConst 100000000 1 output.value)
  let invoiceAmountSat : ℤ := (msatToSat invoiceAmountMsat : ℤ)
  if amountSat < invoiceAmountSat then
    .error (.amountTooLow amountSat invoiceAmountSat)
  else
  let scriptPubKey := hexToBytes output.scriptPubKeyHex.data
  if ¬ (scriptPubKey.length = 34 ∧ scriptPubKey.headD 0 = 81) then
    .error (.notP2tr scriptPubKey.length (scriptPubKey.headD 0))
  else if ¬ (expectedScriptPubKeyHex = output.scriptPubKeyHex.data) then
    .error (.scriptPubKeyMismatch expectedScriptPubKeyHex output.scriptPubKeyHex.data)
  else
    .ok { txid := fundingInfo.txid, vout := fundingInfo.vout,
          amount_sat := amountSat, confirmations := confirmations,
          script_pubkey_hex := output.scriptPubKeyHex.data,
          expected_script_pubkey_hex := expectedScriptPubKeyHex }

/-! ### src/bitcoin/htlc_p2tr_finalize.ts (claim and refund spenders) -/

/-- Modelled from the spec: `DUST_LIMIT_SAT` of src/bitcoin/utxo_utils.ts
is not among the sources; §4.4 gives the P2TR dust limit, 330 sat. -/
def DUST_LIMIT_SAT : ℤ := 330

structure htlcP2trUtxo where
  txid : String
  vout : Nat
  value : ℤ

/-- Result shape of `deriveTaprootFromWIF` (src/bitcoin/keys.ts is
external key derivation). -/
structure DerivedTaprootKey where
  pubkey_hex : String
  x_only_pubkey_hex : String
  taproot_address : String

/-- Result of `ECPair.fromWIF`: the model keeps only the Schnorr signing
capability the claim spender checks and uses. -/
structure LpKeyPair where
  signSchnorr : Option (List Nat → List Nat)

/-- External library and node surface of the claim spender. `sighash` is
the BIP-341 signature hash the PSBT signer feeds to `signSchnorr`;
`p2trWitness` is `bitcoin.payments.p2tr(...).witness` for the claim
leaf. -/
structure ClaimEnv where
  fromWIF : String → Except String LpKeyPair
  deriveTaprootFromWIF : String → Except String DerivedTaprootKey
  p2trWitness : List Nat → List Nat → List Nat → Option (List (List Nat))
  sighash : List Nat
  sendRawTransaction : Except String String

/-- `estimateClaimFeeSat`: `max(1000, ceil((10.5 + 120 + 43) * feeRate))`;
the vbyte total 173.5 is the rational 347/2. -/
def estimateClaimFeeSat (feeRateSatPerVb : ℚ) : ℤ :=
  max 1000 (jsCeil (qMulConst 347 2 feeRateSatPerVb))

def varuintEncode (n : Nat) : List Nat :=
  if n < 253 then [n]
  else if n ≤ 65535 then 253 :: [n % 256, n / 256 % 256]
  else if n ≤ 4294967295 then 254 :: natToLE4 n
  else 255 :: natToLE4 (n % 4294967296) ++ natToLE4 (n / 4294967296)

def witnessStackToScriptWitness (witnessStack : List (List Nat)) : List Nat :=
  varuintEncode witnessStack.length ++
    witnessStack.flatMap (fun item => varuintEncode item.length ++ item)

def assertValidPreimage (preimageHex : String) : Except String (List Nat) :=
  if isHexOfLength preimageHex.data 64 then .ok (hexToBytes preimageHex.data)
  else .error ("Preimage must be a 32-byte hex string")

def buildControlBlock (env : ClaimEnv) (internalKey claimScript refundScript : List Nat) :
    Except String (List Nat) :=
  match env.p2trWitness internalKey claimScript refundScript with
  | none => .error ("Failed to derive control block for claim tapscript")
  | some witness =>
    if witness.length < 2 then
      .error ("Failed to derive control block for claim tapscript")
    else .ok (witness.getLastD [])

/-- Observable outcome of a successful claim: the finalized witness
stack of the single claim input (and its serialization), the LP payout
address and the fee. -/
structure ClaimP2TRResult where
  witnessStack : List (List Nat)
  finalScriptWitness : List Nat
  lp_address : String
  fee_sat : ℤ

inductive RpcEvent where
  | sendRawTransaction
  deriving DecidableEq

/-- `claimP2trHtlc` up to (not including) the broadcast: validate the
preimage against the payment hash, rebuild scripts, control block and
scriptPubKey, check dust after fee, sign and finalize the witness
stack. -/
def claimP2trHtlcCore (C : CryptoPrims) (env : ClaimEnv) (feeRateSatPerVb : ℚ)
    (utxo : htlcP2trUtxo) (paymentHashHex preimageHex lpWif userRefundPubkeyHex : String)
    (tLock : ℤ) : Except String ClaimP2TRResult := do
  _ ← assertValidPaymentHash paymentHashHex
  let preimage ← assertValidPreimage preimageHex
  let derivedHash := sha256hex C preimage
  if lowerChars derivedHash ≠ lowerChars paymentHashHex.data then
    .error ("Preimage does not match payment hash")
  -- `!lpWif || !lpWif.trim()`
  else if lpWif.data.all (fun c => c.isWhitespace) then
    .error ("LP WIF is required to sign the claim transaction")
  else do
  let lpKeyPair ← env.fromWIF lpWif
  let derived ← env.deriveTaprootFromWIF lpWif
  let lpPubkeyHex := derived.pubkey_hex
  let _lpXOnlyPubkey := hexToBytes derived.x_only_pubkey_hex.data
  let claimScript ← buildClaimTapscript C paymentHashHex lpPubkeyHex
  let refundScript ← buildRefundTapscript C tLock userRefundPubkeyHex
  let internalKey ← deriveDeterministicInternalKey C
  let controlBlock ← buildControlBlock env internalKey claimScript refundScript
  let _expectedScriptPubkey ← reconstructP2TRScriptPubKey C
    { payment_hash := paymentHashHex, lp_pubkey := lpPubkeyHex,
      user_pubkey := userRefundPubkeyHex, cltv_expiry := tLock }
  let feeSat := estimateClaimFeeSat feeRateSatPerVb
  let outputValue := utxo.value - feeSat
  if outputValue < DUST_LIMIT_SAT then
    .error ("UTXO value too low after fee")
  else
  -- `buildTaprootSigner`: require the Schnorr capability, then PSBT
  -- sign/finalize: the recorded tapScriptSig signature is
  -- `signSchnorr(sighash)`, and the finalized witness is
  -- `[sig, preimage, claimScript, controlBlock]`.
  match lpKeyPair.signSchnorr with
  | none => .error ("LP key does not support Schnorr signing for Taproot")
  | some signSchnorr =>
    let sig := signSchnorr env.sighash
    let witnessStack := [sig, preimage, claimScript, controlBlock]
    .ok { witnessStack := witnessStack,
          finalScriptWitness := witnessStackToScriptWitness witnessStack,
          lp_address := derived.taproot_address,
          fee_sat := feeSat }

/-- `claimP2trHtlc`: run the core and, only on success, broadcast via
`rpc.sendRawTransaction` (the event list records the node calls made). -/
def claimP2trHtlc (C : CryptoPrims) (env : ClaimEnv) (feeRateSatPerVb : ℚ)
    (utxo : htlcP2trUtxo) (paymentHashHex preimageHex lpWif userRefundPubkeyHex : String)
    (tLock : ℤ) : List RpcEvent × Except String ClaimP2TRResult :=
  match claimP2trHtlcCore C env feeRateSatPerVb utxo paymentHashHex preimageHex lpWif
      userRefundPubkeyHex tLock with
  | .error e => ([], .error e)
  | .ok r =>
    match env.sendRawTransaction with
    | .error e => ([RpcEvent.sendRawTransaction], .error e)
    | .ok _txid => ([RpcEvent.sendRawTransaction], .ok r)

structure RefundP2TRResult where
  psbt_base64 : String
  instructions : String
  deriving DecidableEq

/-- `refundP2trHtlc` as the source defines it: a placeholder that
discards its arguments and returns an empty PSBT with a TODO note. -/
def refundP2trHtlc (_utxo : htlcP2trUtxo) (_paymentHashHex _userRefundPubkeyHex : String)
    (_tLock : ℤ) : RefundP2TRResult :=
  { psbt_base64 := "",
    instructions := "TODO: build P2TR refund PSBT (script-path) for user signing after timelock expiry." }

/-! ### src/swap/orchestrator.ts, runDeposit -/

inductive DepositEvent where
  | invoiceHodl
  | persistHodlRecord
  | getBlockCount
  | sendDeposit
  | waitForFunding
  deriving DecidableEq

structure DepositConfig where
  HODL_EXPIRY_SEC : ℤ
  LOCKTIME_BLOCKS : ℤ
  LP_PUBKEY_HEX : String

/-- External calls `runDeposit` makes, in order; `preimageHex` stands for
the `randomBytes(32)` draw. -/
structure DepositEnv where
  preimageHex : String
  invoiceHodl : Except String (String × String)
  persistHodlRecord : Except String Unit
  getBlockCount : Except String ℤ
  p2trAddress : Option String
  sendDeposit : Except String String
  waitForFunding : Except String (String × Nat × ℤ)

/-- `runDeposit`: amount and configuration guards, then create the HODL
invoice, persist the record, read the tip, build the HTLC, send the
deposit and wait for funding; the event list records the external calls
that were actually reached. -/
def runDeposit (C : CryptoPrims) (env : DepositEnv) (cfg : DepositConfig)
    (amountSat : ℤ) (userRefundPubkeyHex : String) :
    List DepositEvent × Except String Unit :=
  -- `!Number.isFinite(amountSat) || amountSat <= 0`
  if amountSat ≤ 0 then
    ([], .error ("amountSat must be a positive integer (sats)"))
  else if amountSat < 330 then
    ([], .error ("amountSat must be at least 330 sats (P2TR dust limit)"))
  else
  -- `estimatedTimelockSec = LOCKTIME_BLOCKS * 600`; cushion 3600 s
  if cfg.LOCKTIME_BLOCKS * 600 ≤ cfg.HODL_EXPIRY_SEC + 3600 then
    ([], .error ("LOCKTIME_BLOCKS is too low for HODL_EXPIRY_SEC. Increase LOCKTIME_BLOCKS or reduce HODL_EXPIRY_SEC."))
  else if cfg.LP_PUBKEY_HEX.data = [] then
    ([], .error ("LP_PUBKEY_HEX is required for HTLC construction. Provide the LP compressed pubkey hex."))
  else
  let H := String.mk (sha256hex C (hexToBytes env.preimageHex.data))
  match env.invoiceHodl with
  | .error e => ([DepositEvent.invoiceHodl], .error e)
  | .ok _invoiceResp =>
  match env.persistHodlRecord with
  | .error e => ([DepositEvent.invoiceHodl, DepositEvent.persistHodlRecord], .error e)
  | .ok _ =>
  match env.getBlockCount with
  | .error e =>
    ([DepositEvent.invoiceHodl, DepositEvent.persistHodlRecord, DepositEvent.getBlockCount],
      .error e)
  | .ok tipHeight =>
  let tLock := tipHeight + cfg.LOCKTIME_BLOCKS
  match buildP2TRHTLC C env.p2trAddress H cfg.LP_PUBKEY_HEX userRefundPubkeyHex tLock with
  | .error e =>
    ([DepositEvent.invoiceHodl, DepositEvent.persistHodlRecord, DepositEvent.getBlockCount],
      .error e)
  | .ok _p2trResult =>
  match env.sendDeposit with
  | .error e =>
    ([DepositEvent.invoiceHodl, DepositEvent.persistHodlRecord, DepositEvent.getBlockCount,
      DepositEvent.sendDeposit], .error e)
  | .ok _txid =>
  match env.waitForFunding with
  | .error e =>
    ([DepositEvent.invoiceHodl, DepositEvent.persistHodlRecord, DepositEvent.getBlockCount,
      DepositEvent.sendDeposit, DepositEvent.waitForFunding], .error e)
  | .ok _funding =>
    ([DepositEvent.invoiceHodl, DepositEvent.persistHodlRecord, DepositEvent.getBlockCount,
      DepositEvent.sendDeposit, DepositEvent.waitForFunding], .ok ())

/-! ### Bridge lemmas for the JavaScript numeric conversions -/

theorem qMulConst_eq (a : ℤ) (b : ℕ) (hb : b ≠ 0) (r : ℚ) :
    qMulConst a b r = ((a : ℚ) / (b : ℚ)) * r := by
  have hd : (r.den : ℚ) ≠ 0 := by
    exact_mod_cast r.den_nz
  have hb' : (b : ℚ) ≠ 0 := by exact_mod_cast hb
  rw [qMulConst, Rat.divInt_eq_div]
  push_cast
  rw [div_mul_eq_div_div_swap, mul_div_assoc, Rat.num_div_den, div_mul_eq_mul_div]

theorem jsRound_eq_round (q : ℚ) : jsRound q = round q := by
  have hq : q + 1 / 2 = (((2 * q.num + (q.den : ℤ) : ℤ) : ℚ)) / (((2 * q.den : ℕ) : ℚ)) := by
    have hd : (q.den : ℚ) ≠ 0 := by exact_mod_cast q.den_nz
    rw [eq_div_iff (by positivity)]
    push_cast
    nth_rewrite 1 [← Rat.num_div_den q]
    field_simp
    ring
  rw [round_eq, hq]
  have := Rat.floor_intCast_div_natCast (2 * q.num + (q.den : ℤ)) (2 * q.den)
  rw [this, jsRound]
  push_cast
  rfl

theorem jsCeil_eq_ceil (q : ℚ) : jsCeil q = ⌈q⌉ := by
  have hneg : -q = (((-q.num : ℤ) : ℚ)) / ((q.den : ℚ)) := by
    have : (((-q.num : ℤ)) : ℚ) = -((q.num : ℤ) : ℚ) := by push_cast; ring
    rw [this, neg_div, Rat.num_div_den]
  have hceil : ⌈q⌉ = -⌊-q⌋ := by
    have := Int.floor_neg (a := q)
    omega
  rw [hceil, hneg]
  have := Rat.floor_intCast_div_natCast (-q.num) q.den
  rw [this, jsCeil]

theorem msatToSat_eq_ceil (m : ℕ) : (msatToSat m : ℤ) = ⌈((m : ℚ) / 1000)⌉ := by
  have hcast : (((-(m : ℤ) : ℤ)) : ℚ) / (((1000 : ℕ)) : ℚ) = -((m : ℚ) / 1000) := by
    push_cast
    ring
  have hceil : ⌈((m : ℚ) / 1000)⌉ = -⌊-((m : ℚ) / 1000)⌋ := by
    have := Int.floor_neg (a := ((m : ℚ) / 1000))
    omega
  rw [hceil, ← hcast, Rat.floor_intCast_div_natCast (-(m : ℤ)) 1000]
  rw [msatToSat]
  omega

/-! ### Concrete instances used by the witnesses -/

/-- A concrete, fully executable instantiation of the cryptographic
surface used to evaluate the theorems on closed inputs. -/
def mockCrypto : CryptoPrims where
  sha256 := fun _ => List.replicate 32 0
  isPoint := fun _ => true
  isPointCompressed := fun _ => true
  isXOnlyPoint := fun l => l.length == 32
  xOnlyPointFromPoint := fun p => p.drop 1
  xOnlyPointAddTweak := fun _ _ => some (List.replicate 32 2)

def samplePaymentHash : String :=
  "1111111111111111111111111111111111111111111111111111111111111111"

def sampleLpPubkey : String :=
  "02aaaaaaaaaaaaaaaaaaaaaaaaaaaaaaaaaaaaaaaaaaaaaaaaaaaaaaaaaaaaaaaa"

def sampleUserPubkey : String :=
  "03bbbbbbbbbbbbbbbbbbbbbbbbbbbbbbbbbbbbbbbbbbbbbbbbbbbbbbbbbbbbbbbb"

def sampleTemplate : P2TRHTLCTemplate :=
  { payment_hash := samplePaymentHash, lp_pubkey := sampleLpPubkey,
    user_pubkey := sampleUserPubkey, cltv_expiry := 500000 }

/-- The payment hash matching `mockCrypto.sha256` of any preimage. -/
def zeroPaymentHash : String :=
  "0000000000000000000000000000000000000000000000000000000000000000"

def samplePreimage : String :=
  "2222222222222222222222222222222222222222222222222222222222222222"

def sampleWif : String := "KxSampleWifSampleWifSampleWifSampleWifSampleWifSamp"

def sampleUtxo : htlcP2trUtxo := { txid := "ff", vout := 0, value := 100000 }

def mockClaimEnv : ClaimEnv where
  fromWIF := fun _ => .ok { signSchnorr := some (fun _ => List.replicate 64 7) }
  deriveTaprootFromWIF := fun _ =>
    .ok { pubkey_hex := sampleLpPubkey,
          x_only_pubkey_hex := "aaaaaaaaaaaaaaaaaaaaaaaaaaaaaaaaaaaaaaaaaaaaaaaaaaaaaaaaaaaaaaaa",
          taproot_address := "bcrt1lpaddress" }
  p2trWitness := fun _ _ _ => some [[0], [1]]
  sighash := List.replicate 32 9
  sendRawTransaction := .ok ("txidbroadcast")

/-! ### Ordering lemmas for `bufCompare` -/

theorem bufCompare_antisymm : ∀ (a b : List Nat), bufCompare a b = -(bufCompare b a)
  | [], [] => by simp [bufCompare]
  | [], _ :: _ => by simp [bufCompare]
  | _ :: _, [] => by simp [bufCompare]
  | a :: as, b :: bs => by
    simp only [bufCompare]
    rcases lt_trichotomy a b with h | h | h
    · simp [h, Nat.lt_asymm h]
    · subst h
      simp only [lt_irrefl, if_false]
      exact bufCompare_antisymm as bs
    · simp [h, Nat.lt_asymm h]

theorem bufCompare_eq_zero : ∀ (a b : List Nat), bufCompare a b = 0 → a = b
  | [], [], _ => rfl
  | [], _ :: _, h => by simp [bufCompare] at h
  | _ :: _, [], h => by simp [bufCompare] at h
  | a :: as, b :: bs, h => by
    simp only [bufCompare] at h
    rcases lt_trichotomy a b with hab | hab | hab
    · simp [hab] at h
    · subst hab
      simp only [lt_irrefl, if_false] at h
      rw [bufCompare_eq_zero as bs h]
    · simp [hab, Nat.lt_asymm hab] at h

/-- C3: swapping the order of the two leaf hashes does not change the
Taproot merkle root: the hashes are sorted lexicographically
(`Buffer.compare`) before the TapBranch tagged hash. -/
theorem computeTaprootTreeRoot_comm (C : CryptoPrims) (a b : List Nat)
    (_ha : a.length = 32) (_hb : b.length = 32) :
    computeTaprootTreeRoot C [a, b] = computeTaprootTreeRoot C [b, a] := by
  simp only [computeTaprootTreeRoot]
  rcases lt_trichotomy (bufCompare a b) 0 with h | h | h
  · have hba : ¬ bufCompare b a ≤ 0 := by
      rw [bufCompare_antisymm b a]
      omega
    rw [if_pos (by omega), if_neg hba]
  · rw [bufCompare_eq_zero a b h]
  · have hba : bufCompare b a ≤ 0 := by
      rw [bufCompare_antisymm b a]
      omega
    rw [if_neg (by omega), if_pos hba]

theorem computeTaprootTreeRoot_comm_witness :
    computeTaprootTreeRoot mockCrypto [List.replicate 32 0, List.replicate 32 1] =
      computeTaprootTreeRoot mockCrypto [List.replicate 32 1, List.replicate 32 0] :=
  computeTaprootTreeRoot_comm mockCrypto (List.replicate 32 0) (List.replicate 32 1)
    (by simp) (by simp)

/-- C9: the source `refundP2trHtlc` is a documented placeholder: at a
concrete HTLC UTXO and valid parameters it discards its arguments and
returns an empty PSBT with a TODO note, so no refund PSBT with
`nLockTime = tLock`, a CLTV-enabling sequence or a payout output is
produced. -/
theorem refundP2trHtlc_is_stub :
    refundP2trHtlc { txid := "aa", vout := 0, value := 100000 }
      samplePaymentHash sampleUserPubkey 500000 =
      { psbt_base64 := "",
        instructions := "TODO: build P2TR refund PSBT (script-path) for user signing after timelock expiry." } :=
  rfl

/-! ### C8: runDeposit configuration guard -/

def mockDepositEnv : DepositEnv where
  preimageHex := samplePaymentHash
  invoiceHodl := .ok ("lnbcrt1invoice", "secret")
  persistHodlRecord := .ok ()
  getBlockCount := .ok 100
  p2trAddress := some "bcrt1paddress"
  sendDeposit := .ok ("txida")
  waitForFunding := .ok ("txida", 0, 20000)

def mockDepositConfigBad : DepositConfig :=
  { HODL_EXPIRY_SEC := 86400, LOCKTIME_BLOCKS := 6, LP_PUBKEY_HEX := sampleLpPubkey }

/-- C8: with a valid amount, `runDeposit` throws the configuration error
when `LOCKTIME_BLOCKS * 600 ≤ HODL_EXPIRY_SEC + 3600`, before any
external call — in particular `rln.invoiceHodl` is not called and no
HodlRecord is persisted (the event trace is empty); when the strict
inequality holds (and the LP pubkey is configured) the HODL invoice
creation is reached. -/
theorem runDeposit_timelock_guard (C : CryptoPrims) (env : DepositEnv) (cfg : DepositConfig)
    (amountSat : ℤ) (userRefundPubkeyHex : String) (hamount : 330 ≤ amountSat) :
    (cfg.LOCKTIME_BLOCKS * 600 ≤ cfg.HODL_EXPIRY_SEC + 3600 →
      runDeposit C env cfg amountSat userRefundPubkeyHex =
        ([], .error ("LOCKTIME_BLOCKS is too low for HODL_EXPIRY_SEC. Increase LOCKTIME_BLOCKS or reduce HODL_EXPIRY_SEC."))) ∧
    (cfg.HODL_EXPIRY_SEC + 3600 < cfg.LOCKTIME_BLOCKS * 600 →
      cfg.LP_PUBKEY_HEX.data ≠ [] →
      DepositEvent.invoiceHodl ∈ (runDeposit C env cfg amountSat userRefundPubkeyHex).1) := by
  constructor
  · intro hcfg
    rw [runDeposit, if_neg (by omega), if_neg (by omega), if_pos hcfg]
  · intro hcfg hlp
    rw [runDeposit, if_neg (by omega), if_neg (by omega), if_neg (by omega), if_neg hlp]
    repeat' split
    all_goals (first | (simp; done) | (dsimp only; split <;> simp))

theorem runDeposit_timelock_guard_witness :
    runDeposit mockCrypto mockDepositEnv mockDepositConfigBad 20000 sampleUserPubkey =
      ([], .error ("LOCKTIME_BLOCKS is too low for HODL_EXPIRY_SEC. Increase LOCKTIME_BLOCKS or reduce HODL_EXPIRY_SEC.")) :=
  (runDeposit_timelock_guard mockCrypto mockDepositEnv mockDepositConfigBad 20000
    sampleUserPubkey (by decide)).1 (by decide)

/-! ### C10: the verifier always rejects unconfirmed funding -/

/-- C10: the confirmations guard treats a missing or zero
`confirmations` field as failure before comparing against `minConfs`, so
an unconfirmed funding transaction is rejected with the confirmations
error for every `minConfs`, including `minConfs = 0`. -/
theorem verify_rejects_unconfirmed (C : CryptoPrims)
    (getRawTransaction : Except String TxDetails) (getTransactionOutput : Except String TxOutput)
    (fundingInfo : FundingTransactionInfo) (template : P2TRHTLCTemplate)
    (invoiceAmountMsat : Nat) (minConfs : ℤ)
    (hlp : assertValidCompressedPubkey C template.lp_pubkey ("LP") = .ok ())
    (huser : assertValidCompressedPubkey C template.user_pubkey ("User") = .ok ())
    (htx : getRawTransaction = .ok { confirmations := none } ∨
           getRawTransaction = .ok { confirmations := some 0 }) :
    verifyFundingTransaction C getRawTransaction getTransactionOutput fundingInfo template
      invoiceAmountMsat minConfs = .error (.notConfirmed 0 minConfs) := by
  rcases htx with h | h <;>
  · simp only [verifyFundingTransaction, hlp, huser, h]
    simp

theorem verify_rejects_unconfirmed_witness :
    verifyFundingTransaction mockCrypto (.ok { confirmations := some 0 })
      (.ok { value := 1, scriptPubKeyHex := "00" }) { txid := "ff", vout := 0 }
      sampleTemplate 20000000 0 = .error (.notConfirmed 0 0) :=
  verify_rejects_unconfirmed mockCrypto _ _ _ _ _ _ rfl rfl (Or.inr rfl)

/-! ### C7: the deterministic internal key -/

theorem deriveLoop_ok_iff (C : CryptoPrims) : ∀ (fuel attempt : Nat) (k : List Nat),
    deriveLoop C fuel attempt = .ok k ↔
      ∃ i, attempt ≤ i ∧ i < attempt + fuel ∧
        C.isXOnlyPoint (internalKeyCandidate C i) = true ∧
        (∀ j, attempt ≤ j → j < i → C.isXOnlyPoint (internalKeyCandidate C j) = false) ∧
        k = internalKeyCandidate C i := by
  intro fuel
  induction fuel with
  | zero =>
    intro attempt k
    simp only [deriveLoop]
    constructor
    · intro h
      exact absurd h (by simp)
    · rintro ⟨i, h1, h2, -⟩
      omega
  | succ fuel ih =>
    intro attempt k
    simp only [deriveLoop]
    by_cases hv : C.isXOnlyPoint (internalKeyCandidate C attempt) = true
    · rw [if_pos hv]
      constructor
      · intro h
        refine ⟨attempt, le_refl _, by omega, hv, fun j h1 h2 => by omega, ?_⟩
        exact (Except.ok.inj h).symm
      · rintro ⟨i, h1, h2, hvi, hmin, hk⟩
        have hia : i = attempt := by
          by_contra hne
          have := hmin attempt (le_refl _) (by omega)
          rw [hv] at this
          exact absurd this (by simp)
        subst hia
        subst hk
        rfl
    · rw [if_neg hv]
      rw [ih (attempt + 1) k]
      have hvf : C.isXOnlyPoint (internalKeyCandidate C attempt) = false := by
        cases hb : C.isXOnlyPoint (internalKeyCandidate C attempt)
        · rfl
        · exact absurd hb hv
      constructor
      · rintro ⟨i, h1, h2, hvi, hmin, hk⟩
        refine ⟨i, by omega, by omega, hvi, ?_, hk⟩
        intro j hj1 hj2
        rcases Nat.eq_or_lt_of_le hj1 with he | hj
        · rw [← he]
          exact hvf
        · exact hmin j (by omega) hj2
      · rintro ⟨i, h1, h2, hvi, hmin, hk⟩
        have hne : i ≠ attempt := by
          intro he
          subst he
          exact hv hvi
        exact ⟨i, by omega, by omega, hvi, fun j hj1 hj2 => hmin j (by omega) hj2, hk⟩

theorem deriveLoop_error (C : CryptoPrims) : ∀ (fuel attempt : Nat),
    (∀ i, attempt ≤ i → i < attempt + fuel →
      C.isXOnlyPoint (internalKeyCandidate C i) = false) →
    deriveLoop C fuel attempt = .error ("Failed to derive deterministic internal key") := by
  intro fuel
  induction fuel with
  | zero => intro attempt _; rfl
  | succ fuel ih =>
    intro attempt h
    have h0 := h attempt (le_refl _) (by omega)
    rw [deriveLoop, if_neg (by simp [h0])]
    exact ih (attempt + 1) (fun i h1 h2 => h i (by omega) (by omega))

/-- C7: `deriveDeterministicInternalKey` is a pure function of the
protocol constant: it returns the first candidate
`SHA-256(seed)` (attempt 0) or `SHA-256(seed || be32(attempt))`
(attempts 1..255, seed the UTF-8 bytes of the constant, see
`internalKeyCandidate`) that is a valid x-only point, and fails after
256 attempts when none is valid. -/
theorem deriveDeterministicInternalKey_spec (C : CryptoPrims) :
    ((∃ i, i < 256 ∧ C.isXOnlyPoint (internalKeyCandidate C i) = true) →
      ∃ i, i < 256 ∧ C.isXOnlyPoint (internalKeyCandidate C i) = true ∧
        (∀ j, j < i → C.isXOnlyPoint (internalKeyCandidate C j) = false) ∧
        deriveDeterministicInternalKey C = .ok (internalKeyCandidate C i)) ∧
    ((∀ i, i < 256 → C.isXOnlyPoint (internalKeyCandidate C i) = false) →
      deriveDeterministicInternalKey C =
        .error ("Failed to derive deterministic internal key")) := by
  constructor
  · rintro ⟨w, hw, hwv⟩
    have hex : ∃ n, C.isXOnlyPoint (internalKeyCandidate C n) = true := ⟨w, hwv⟩
    have hvi : C.isXOnlyPoint (internalKeyCandidate C (Nat.find hex)) = true :=
      Nat.find_spec hex
    have hmin : ∀ j, j < Nat.find hex →
        C.isXOnlyPoint (internalKeyCandidate C j) = false := by
      intro j hj
      have hne := Nat.find_min hex hj
      cases hb : C.isXOnlyPoint (internalKeyCandidate C j)
      · rfl
      · exact absurd hb hne
    have hle : Nat.find hex ≤ w := Nat.find_min' hex hwv
    refine ⟨Nat.find hex, by omega, hvi, hmin, ?_⟩
    exact (deriveLoop_ok_iff C INTERNAL_KEY_MAX_ATTEMPTS 0 _).mpr
      ⟨Nat.find hex, Nat.zero_le _,
        by simp only [INTERNAL_KEY_MAX_ATTEMPTS]; omega, hvi,
        fun j _ hj => hmin j hj, rfl⟩
  · intro h
    exact deriveLoop_error C 256 0 (fun i _ h2 => h i (by omega))

theorem deriveDeterministicInternalKey_spec_witness :
    ∃ i, i < 256 ∧ mockCrypto.isXOnlyPoint (internalKeyCandidate mockCrypto i) = true ∧
      (∀ j, j < i → mockCrypto.isXOnlyPoint (internalKeyCandidate mockCrypto j) = false) ∧
      deriveDeterministicInternalKey mockCrypto = .ok (internalKeyCandidate mockCrypto i) :=
  (deriveDeterministicInternalKey_spec mockCrypto).1 ⟨0, by decide, by decide⟩

/-! ### Structural lemmas used to run the script pipeline -/

theorem compilePush_small (b : List Nat) (h2 : 2 ≤ b.length) (h76 : b.length < 76) :
    compilePush b = b.length :: b := by
  match b with
  | x :: y :: rest =>
    simp only [compilePush]
    rw [if_pos h76]

theorem natToLEAux_length_le : ∀ (fuel n : Nat), (natToLEAux fuel n).length ≤ fuel := by
  intro fuel
  induction fuel with
  | zero => intro n; simp [natToLEAux]
  | succ fuel ih =>
    intro n
    rw [natToLEAux]
    split
    · simp
    · simpa using ih (n / 256)

theorem compilePush_length_le (b : List Nat) : (compilePush b).length ≤ b.length + 5 := by
  match b with
  | [] => simp [compilePush]
  | [x] =>
    simp only [compilePush]
    split
    · simp
    · split <;> simp
  | x :: y :: rest =>
    simp only [compilePush]
    split
    · simp
    · split
      · simp
      · split
        · simp
        · simp [natToLE4]

theorem scriptNumEncode_length_le (n : Nat) : (scriptNumEncode n).length ≤ 9 := by
  rw [scriptNumEncode]
  split
  · simp
  · dsimp only
    split
    · have := natToLEAux_length_le 8 n
      simp only [natToLE] at *
      simp only [List.length_append, List.length_cons, List.length_nil]
      omega
    · have := natToLEAux_length_le 8 n
      simp only [natToLE] at *
      omega

theorem serString_ok_of_small (s : List Nat) (h : s.length < 253) :
    serString s = .ok (s.length :: s) := by
  rw [serString, if_pos h]

theorem hexToBytes_length : ∀ (l : List Char), (∀ c ∈ l, isHexDigit c = true) →
    (hexToBytes l).length = l.length / 2
  | [] , _ => rfl
  | [c], _ => by simp [hexToBytes]
  | c1 :: c2 :: rest, h => by
    have h1 : isHexDigit c1 = true := h c1 (by simp)
    have h2 : isHexDigit c2 = true := h c2 (by simp)
    obtain ⟨v1, hv1⟩ := Option.isSome_iff_exists.mp h1
    obtain ⟨v2, hv2⟩ := Option.isSome_iff_exists.mp h2
    simp only [hexToBytes, hv1, hv2]
    rw [List.length_cons, hexToBytes_length rest (fun c hc => h c (by simp [hc]))]
    simp only [List.length_cons]
    omega

theorem toXOnlyPubkey_ok_valid (C : CryptoPrims) (p l : String) (x : List Nat)
    (h : toXOnlyPubkey C p l = .ok x) : C.isXOnlyPoint x = true := by
  unfold toXOnlyPubkey at h
  cases hassert : assertValidCompressedPubkey C p l with
  | error e =>
    rw [hassert] at h
    simp [Bind.bind, Except.bind] at h
  | ok u =>
    rw [hassert] at h
    simp only [Bind.bind, Except.bind] at h
    split at h
    · rename_i hcond
      rw [Except.ok.injEq] at h
      rw [← h]
      exact hcond
    · simp at h

theorem internalKeyCandidate_length (C : CryptoPrims)
    (hsha : ∀ d, (C.sha256 d).length = 32) (i : Nat) :
    (internalKeyCandidate C i).length = 32 := by
  rw [internalKeyCandidate]
  exact hsha _

theorem derive_ok_props (C : CryptoPrims) (k : List Nat)
    (h : deriveDeterministicInternalKey C = .ok k) :
    C.isXOnlyPoint k = true ∧ ∃ i, k = internalKeyCandidate C i := by
  obtain ⟨i, _, _, hvi, _, hk⟩ :=
    (deriveLoop_ok_iff C INTERNAL_KEY_MAX_ATTEMPTS 0 k).mp h
  subst hk
  exact ⟨hvi, ⟨i, rfl⟩⟩

theorem buildClaimTapscript_eq (C : CryptoPrims) (ph lp : String) (x : List Nat)
    (hph : isHexOfLength ph.data 64 = true)
    (hlp : toXOnlyPubkey C lp ("LP") = .ok x) :
    buildClaimTapscript C ph lp =
      .ok ([168] ++ compilePush (hexToBytes ph.data) ++ [136] ++ compilePush x ++ [172]) := by
  unfold buildClaimTapscript assertValidPaymentHash
  rw [if_pos hph]
  simp [Bind.bind, Except.bind, hlp]

theorem buildRefundTapscript_eq (C : CryptoPrims) (cltv : ℤ) (up : String) (x : List Nat)
    (h0 : 0 ≤ cltv) (h1 : cltv ≤ 4294967295)
    (hup : toXOnlyPubkey C up ("User") = .ok x) :
    buildRefundTapscript C cltv up =
      .ok (compilePush (scriptNumEncode cltv.toNat) ++ [177, 117] ++ compilePush x ++ [172]) := by
  unfold buildRefundTapscript assertValidCltvExpiry
  rw [if_neg (by omega), if_neg (by omega)]
  simp [Bind.bind, Except.bind, hup]

/-! ### C2: shape of the reconstructed scriptPubKey -/

/-- C2: for a well-formed template (64-hex payment hash, valid compressed
pubkeys, `0 ≤ cltv_expiry ≤ 0xffffffff`) and a cryptographic library with
32-byte hashes and tweak results, `reconstructP2TRScriptPubKey` succeeds
with a 34-byte buffer `0x51 0x20 || outputKey` whose first byte is
`OP_1` and whose last 32 bytes are the tweaked output key. -/
theorem reconstructP2TRScriptPubKey_shape (C : CryptoPrims) (t : P2TRHTLCTemplate)
    (hsha : ∀ d, (C.sha256 d).length = 32)
    (htweak : ∀ k tw r, C.xOnlyPointAddTweak k tw = some r → r.length = 32)
    (htweaksome : ∀ k tw, (C.xOnlyPointAddTweak k tw).isSome = true)
    (hph : isHexOfLength t.payment_hash.data 64 = true)
    (hlp : ∃ x, toXOnlyPubkey C t.lp_pubkey ("LP") = .ok x)
    (huser : ∃ x, toXOnlyPubkey C t.user_pubkey ("User") = .ok x)
    (hxlen : ∀ x, C.isXOnlyPoint x = true → x.length = 32)
    (hderive : ∃ k, deriveDeterministicInternalKey C = .ok k)
    (hcltv0 : 0 ≤ t.cltv_expiry) (hcltv1 : t.cltv_expiry ≤ 4294967295) :
    ∃ spk key, reconstructP2TRScriptPubKey C t = .ok spk ∧
      spk.length = 34 ∧ spk.headD 0 = 81 ∧ key.length = 32 ∧ spk = 81 :: 32 :: key := by
  obtain ⟨lpx, hlpx⟩ := hlp
  obtain ⟨ux, hux⟩ := huser
  obtain ⟨ik, hik⟩ := hderive
  obtain ⟨hikvalid, i, hikc⟩ := derive_ok_props C ik hik
  have hik32 : ik.length = 32 := by
    rw [hikc]
    exact internalKeyCandidate_length C hsha i
  have hlpx32 : lpx.length = 32 :=
    hxlen lpx (toXOnlyPubkey_ok_valid C t.lp_pubkey ("LP") lpx hlpx)
  have hux32 : ux.length = 32 :=
    hxlen ux (toXOnlyPubkey_ok_valid C t.user_pubkey ("User") ux hux)
  have hH32 : (hexToBytes t.payment_hash.data).length = 32 := by
    have hall : ∀ c ∈ t.payment_hash.data, isHexDigit c = true := by
      intro c hc
      have := (by simpa [isHexOfLength, Bool.and_eq_true] using hph :
        t.payment_hash.data.length = 64 ∧ ∀ c ∈ t.payment_hash.data, isHexDigit c = true)
      exact this.2 c hc
    have hlen : t.payment_hash.data.length = 64 := by
      have := (by simpa [isHexOfLength, Bool.and_eq_true] using hph :
        t.payment_hash.data.length = 64 ∧ ∀ c ∈ t.payment_hash.data, isHexDigit c = true)
      exact this.1
    rw [hexToBytes_length _ hall, hlen]
  -- the two scripts and their lengths
  set H := hexToBytes t.payment_hash.data with hHdef
  have hclaim := buildClaimTapscript_eq C t.payment_hash t.lp_pubkey lpx hph hlpx
  have hrefund := buildRefundTapscript_eq C t.cltv_expiry t.user_pubkey ux hcltv0 hcltv1 hux
  set claimScript := [168] ++ compilePush H ++ [136] ++ compilePush lpx ++ [172] with hcsdef
  set refundScript :=
    compilePush (scriptNumEncode t.cltv_expiry.toNat) ++ [177, 117] ++ compilePush ux ++ [172]
    with hrsdef
  have hcsLen : claimScript.length < 253 := by
    rw [hcsdef]
    have l1 := compilePush_length_le H
    have l2 := compilePush_length_le lpx
    simp only [List.length_append, List.length_cons, List.length_nil]
    omega
  have hrsLen : refundScript.length < 253 := by
    rw [hrsdef]
    have l1 := compilePush_length_le (scriptNumEncode t.cltv_expiry.toNat)
    have l2 := compilePush_length_le ux
    have l3 := scriptNumEncode_length_le t.cltv_expiry.toNat
    simp only [List.length_append, List.length_cons, List.length_nil]
    omega
  -- leaf hashes, tree root, tweak, output key
  have hclh : computeTapLeafHash C claimScript TAPLEAF_VERSION =
      .ok (taggedHash C ("TapLeaf") (TAPLEAF_VERSION :: (claimScript.length :: claimScript))) := by
    unfold computeTapLeafHash
    rw [serString_ok_of_small claimScript hcsLen]
    simp [Bind.bind, Except.bind]
  have hrlh : computeTapLeafHash C refundScript TAPLEAF_VERSION =
      .ok (taggedHash C ("TapLeaf") (TAPLEAF_VERSION :: (refundScript.length :: refundScript))) := by
    unfold computeTapLeafHash
    rw [serString_ok_of_small refundScript hrsLen]
    simp [Bind.bind, Except.bind]
  set clh := taggedHash C ("TapLeaf") (TAPLEAF_VERSION :: (claimScript.length :: claimScript))
    with hclhdef
  set rlh := taggedHash C ("TapLeaf") (TAPLEAF_VERSION :: (refundScript.length :: refundScript))
    with hrlhdef
  set root := if bufCompare clh rlh ≤ 0 then taggedHash C ("TapBranch") (clh ++ rlh)
    else taggedHash C ("TapBranch") (rlh ++ clh) with hrootdef
  have hroot : computeTaprootTreeRoot C [clh, rlh] = .ok root := by
    rw [computeTaprootTreeRoot, hrootdef]
    split <;> simp
  have hroot32 : root.length = 32 := by
    rw [hrootdef]
    split <;> exact hsha _
  have htwk : computeTapTweak C ik root =
      .ok (taggedHash C ("TapTweak") (ik ++ root)) := by
    rw [computeTapTweak, if_neg (by simp [hik32, hikvalid]), if_neg (by simp [hroot32])]
  obtain ⟨key, hkey⟩ := Option.isSome_iff_exists.mp
    (htweaksome ik (taggedHash C ("TapTweak") (ik ++ root)))
  have hkey32 : key.length = 32 := htweak _ _ _ hkey
  have hout : computeTaprootOutputKey C ik root = .ok key := by
    unfold computeTaprootOutputKey
    rw [htwk]
    simp [Bind.bind, Except.bind, hkey]
  refine ⟨81 :: 32 :: key, key, ?_, by simp [hkey32], rfl, hkey32, rfl⟩
  simp only [reconstructP2TRScriptPubKey, Bind.bind, Except.bind, hclaim, hrefund, hik,
    hclh, hrlh, hroot, hout]
  rw [compilePush_small key (by omega) (by omega)]
  simp [hkey32]

theorem reconstructP2TRScriptPubKey_shape_witness :
    ∃ spk key, reconstructP2TRScriptPubKey mockCrypto sampleTemplate = .ok spk ∧
      spk.length = 34 ∧ spk.headD 0 = 81 ∧ key.length = 32 ∧ spk = 81 :: 32 :: key :=
  reconstructP2TRScriptPubKey_shape mockCrypto sampleTemplate
    (fun _ => rfl)
    (fun _ _ r h => by cases h; rfl)
    (fun _ _ => rfl)
    (by decide)
    ⟨(hexToBytes sampleLpPubkey.data).drop 1, rfl⟩
    ⟨(hexToBytes sampleUserPubkey.data).drop 1, rfl⟩
    (fun x hx => by simpa [mockCrypto] using hx)
    ⟨List.replicate 32 0, rfl⟩
    (by decide) (by decide)

/-! ### C1 and C6: the claim spender -/

theorem assertValidPreimage_ok (s : String) (p : List Nat)
    (h : assertValidPreimage s = .ok p) : p = hexToBytes s.data := by
  unfold assertValidPreimage at h
  split at h
  · exact (Except.ok.inj h).symm
  · simp at h

/-- C1: `claimP2trHtlc` checks `SHA-256(preimage)` against the payment
hash, compared case-insensitively on the hex strings, before
constructing or broadcasting anything: on a mismatch it returns the
preimage-mismatch error with an empty RPC trace (`sendRawTransaction`
is never invoked), and a successful run implies the hashes matched. -/
theorem claimP2trHtlc_preimage_guard (C : CryptoPrims) (env : ClaimEnv) (feeRate : ℚ)
    (utxo : htlcP2trUtxo) (paymentHashHex preimageHex lpWif userRefundPubkeyHex : String)
    (tLock : ℤ)
    (hph : isHexOfLength paymentHashHex.data 64 = true)
    (hpre : isHexOfLength preimageHex.data 64 = true) :
    (lowerChars (sha256hex C (hexToBytes preimageHex.data)) ≠ lowerChars paymentHashHex.data →
      claimP2trHtlc C env feeRate utxo paymentHashHex preimageHex lpWif userRefundPubkeyHex
        tLock = ([], .error ("Preimage does not match payment hash"))) ∧
    (∀ tr r, claimP2trHtlc C env feeRate utxo paymentHashHex preimageHex lpWif
        userRefundPubkeyHex tLock = (tr, .ok r) →
      lowerChars (sha256hex C (hexToBytes preimageHex.data)) = lowerChars paymentHashHex.data) := by
  have key : lowerChars (sha256hex C (hexToBytes preimageHex.data)) ≠
      lowerChars paymentHashHex.data →
      claimP2trHtlc C env feeRate utxo paymentHashHex preimageHex lpWif userRefundPubkeyHex
        tLock = ([], .error ("Preimage does not match payment hash")) := by
    intro hmm
    have hcore : claimP2trHtlcCore C env feeRate utxo paymentHashHex preimageHex lpWif
        userRefundPubkeyHex tLock = .error ("Preimage does not match payment hash") := by
      unfold claimP2trHtlcCore
      rw [show assertValidPaymentHash paymentHashHex = .ok () from by
        rw [assertValidPaymentHash, if_pos hph]]
      rw [show assertValidPreimage preimageHex = .ok (hexToBytes preimageHex.data) from by
        rw [assertValidPreimage, if_pos hpre]]
      simp only [Bind.bind, Except.bind]
      rw [if_pos hmm]
    rw [claimP2trHtlc, hcore]
  refine ⟨key, ?_⟩
  intro tr r h
  by_contra hne
  rw [key hne] at h
  simp at h

theorem claimP2trHtlc_preimage_guard_witness :
    claimP2trHtlc mockCrypto mockClaimEnv 1 { txid := "ff", vout := 0, value := 100000 }
      samplePaymentHash samplePreimage sampleWif sampleUserPubkey 500000 =
      ([], .error ("Preimage does not match payment hash")) :=
  (claimP2trHtlc_preimage_guard mockCrypto mockClaimEnv 1
    { txid := "ff", vout := 0, value := 100000 } samplePaymentHash samplePreimage sampleWif
    sampleUserPubkey 500000 (by decide) (by decide)).1 (by decide)

/-- C6: every successful `claimP2trHtlc` run finalizes its single input
with exactly the 4-element witness stack
`[schnorrSignature, preimage, claimScript, controlBlock]`, in that
order: the signature the Schnorr signer produced over the sighash, the
preimage bytes, the rebuilt claim tapscript and the derived control
block. -/
theorem claim_witness_stack_order (C : CryptoPrims) (env : ClaimEnv) (feeRate : ℚ)
    (utxo : htlcP2trUtxo) (paymentHashHex preimageHex lpWif userRefundPubkeyHex : String)
    (tLock : ℤ) (tr : List RpcEvent) (r : ClaimP2TRResult)
    (h : claimP2trHtlc C env feeRate utxo paymentHashHex preimageHex lpWif
        userRefundPubkeyHex tLock = (tr, .ok r)) :
    r.witnessStack.length = 4 ∧
    ∃ kp f derived claimScript refundScript internalKey controlBlock,
      env.fromWIF lpWif = .ok kp ∧ kp.signSchnorr = some f ∧
      env.deriveTaprootFromWIF lpWif = .ok derived ∧
      buildClaimTapscript C paymentHashHex derived.pubkey_hex = .ok claimScript ∧
      buildRefundTapscript C tLock userRefundPubkeyHex = .ok refundScript ∧
      deriveDeterministicInternalKey C = .ok internalKey ∧
      buildControlBlock env internalKey claimScript refundScript = .ok controlBlock ∧
      r.witnessStack =
        [f env.sighash, hexToBytes preimageHex.data, claimScript, controlBlock] := by
  have hcore : claimP2trHtlcCore C env feeRate utxo paymentHashHex preimageHex lpWif
      userRefundPubkeyHex tLock = .ok r := by
    rw [claimP2trHtlc] at h
    split at h
    · simp at h
    · rename_i r' heq
      split at h
      · simp at h
      · simp only [Prod.mk.injEq, Except.ok.injEq] at h
        rw [heq, h.2]
  unfold claimP2trHtlcCore at hcore
  simp only [Bind.bind, Except.bind] at hcore
  repeat' split at hcore
  all_goals try (exact Except.noConfusion hcore)
  rw [Except.ok.injEq] at hcore
  subst hcore
  rename_i x9 u hequ x8 preimage heqpre hmatch hwif x7 kp heqkp x6 derived heqder x5
    claimScript heqcs x4 refundScript heqrs x3 internalKey heqik x2 controlBlock heqcb x1
    spk heqspk hdust xo f heqf
  have hp : preimage = hexToBytes preimageHex.data := assertValidPreimage_ok _ _ heqpre
  subst hp
  exact ⟨rfl, kp, f, derived, claimScript, refundScript, internalKey, controlBlock,
    heqkp, heqf, heqder, heqcs, heqrs, heqik, heqcb, rfl⟩

theorem claim_witness_stack_order_witness :
    ∃ tr r, claimP2trHtlc mockCrypto mockClaimEnv 1 sampleUtxo zeroPaymentHash
        samplePreimage sampleWif sampleUserPubkey 500000 = (tr, Except.ok r) ∧
      r.witnessStack.length = 4 :=
  ⟨_, _, rfl, (claim_witness_stack_order mockCrypto mockClaimEnv 1 sampleUtxo zeroPaymentHash
    samplePreimage sampleWif sampleUserPubkey 500000 _ _ rfl).1⟩

/-! ### C4 and C5: order and semantics of the amount check -/

theorem jsRound_mul1e8 (v : ℚ) : jsRound (qMulConst 100000000 1 v) = round (v * 100000000) := by
  rw [jsRound_eq_round, qMulConst_eq 100000000 1 one_ne_zero v]
  norm_num [mul_comm]

/-- A 34-byte non-P2TR-matching scriptPubKey hex, distinct from what
`reconstructP2TRScriptPubKey mockCrypto sampleTemplate` produces. -/
def wrongScriptPubKeyHex : String :=
  "51200303030303030303030303030303030303030303030303030303030303030303"

/-- Helper: once the verifier reaches the fetched output, a sats value
below the invoice amount yields the insufficient-amount error (stated on
the executable `jsRound`/`msatToSat` forms). -/
theorem verify_amountTooLow_of (C : CryptoPrims)
    (getRawTransaction : Except String TxDetails) (getTransactionOutput : Except String TxOutput)
    (fundingInfo : FundingTransactionInfo) (template : P2TRHTLCTemplate)
    (invoiceAmountMsat : Nat) (minConfs confs : ℤ) (tx : TxDetails)
    (cs rs spk : List Nat) (output : TxOutput)
    (hlp : assertValidCompressedPubkey C template.lp_pubkey ("LP") = .ok ())
    (huser : assertValidCompressedPubkey C template.user_pubkey ("User") = .ok ())
    (htx : getRawTransaction = .ok tx) (hc : tx.confirmations = some confs)
    (hc0 : confs ≠ 0) (hcm : ¬ confs < minConfs)
    (hclaim : buildClaimTapscript C template.payment_hash template.lp_pubkey = .ok cs)
    (hrefund : buildRefundTapscript C template.cltv_expiry template.user_pubkey = .ok rs)
    (hcs0 : cs.length ≠ 0) (hrs0 : rs.length ≠ 0)
    (hinc1 : strContains (lowerChars (bytesToHex cs))
      (lowerChars template.payment_hash.data) = true)
    (hinc2 : strContains (lowerChars (bytesToHex cs)) (getXOnlyHex template.lp_pubkey) = true)
    (hinc3 : strContains (lowerChars (bytesToHex rs)) (getXOnlyHex template.user_pubkey) = true)
    (hrec : reconstructP2TRScriptPubKey C template = .ok spk)
    (hout : getTransactionOutput = .ok output)
    (hamount : jsRound (qMulConst 100000000 1 output.value) <
      (msatToSat invoiceAmountMsat : ℤ)) :
    verifyFundingTransaction C getRawTransaction getTransactionOutput fundingInfo template
      invoiceAmountMsat minConfs =
      .error (.amountTooLow (jsRound (qMulConst 100000000 1 output.value))
        (msatToSat invoiceAmountMsat)) := by
  simp only [verifyFundingTransaction, hlp, huser, htx, hc, hclaim, hrefund, hrec, hout,
    getTransactionOutputModel, Option.getD]
  rw [if_neg (by omega), if_neg (by omega), if_neg (by simp [hinc1]),
    if_neg (by simp [hinc2]), if_neg (by simp [hinc3]), if_pos hamount]

set_option maxRecDepth 10000 in
/-- C4 counterexample: at a concrete fetched output whose scriptPubKey
differs from the reconstruction AND whose value (19999 sats) is below
the invoice amount (20000000 msat = 20000 sats), the verifier fails with
the insufficient-amount error, not the scriptPubKey-mismatch error: the
amount comparison at verify_p2tr.ts:146 runs before the byte-for-byte
comparison at verify_p2tr.ts:164. -/
theorem verify_spk_order_counterexample :
    (∃ spk, reconstructP2TRScriptPubKey mockCrypto sampleTemplate = .ok spk ∧
      bytesToHex spk ≠ wrongScriptPubKeyHex.data) ∧
    verifyFundingTransaction mockCrypto (.ok { confirmations := some 3 })
      (.ok { value := mkRat 19999 100000000, scriptPubKeyHex := wrongScriptPubKeyHex })
      { txid := "ff", vout := 0 } sampleTemplate 20000000 1 =
      .error (.amountTooLow 19999 20000) := by
  refine ⟨⟨81 :: 32 :: List.replicate 32 2, rfl, by decide⟩, ?_⟩
  have h := verify_amountTooLow_of mockCrypto (.ok { confirmations := some 3 })
    (.ok { value := mkRat 19999 100000000, scriptPubKeyHex := wrongScriptPubKeyHex })
    { txid := "ff", vout := 0 } sampleTemplate 20000000 1 3 { confirmations := some 3 }
    ([168] ++ compilePush (hexToBytes samplePaymentHash.data) ++ [136] ++
      compilePush ((hexToBytes sampleLpPubkey.data).drop 1) ++ [172])
    (compilePush (scriptNumEncode (500000 : ℤ).toNat) ++ [177, 117] ++
      compilePush ((hexToBytes sampleUserPubkey.data).drop 1) ++ [172])
    (81 :: 32 :: List.replicate 32 2)
    { value := mkRat 19999 100000000, scriptPubKeyHex := wrongScriptPubKeyHex }
    rfl rfl rfl rfl (by decide) (by decide) rfl rfl (by decide) (by decide)
    (by decide) (by decide) (by decide) rfl rfl (by decide)
  rw [show jsRound (qMulConst 100000000 1 (mkRat 19999 100000000)) = (19999 : ℤ) from by
      decide,
    show msatToSat 20000000 = 20000 from by decide] at h
  exact h

/-- C4 (amended): whenever the verifier reaches the fetched output, the
amount comparison is performed before the byte-for-byte scriptPubKey
comparison: for every output whose scriptPubKey differs from the
reconstruction and whose sats value is below the invoice amount, it
fails with the insufficient-amount error, not the scriptPubKey-mismatch
error. -/
theorem verify_amount_checked_before_spk (C : CryptoPrims)
    (getRawTransaction : Except String TxDetails) (getTransactionOutput : Except String TxOutput)
    (fundingInfo : FundingTransactionInfo) (template : P2TRHTLCTemplate)
    (invoiceAmountMsat : Nat) (minConfs confs : ℤ) (tx : TxDetails)
    (cs rs spk : List Nat) (output : TxOutput)
    (hlp : assertValidCompressedPubkey C template.lp_pubkey ("LP") = .ok ())
    (huser : assertValidCompressedPubkey C template.user_pubkey ("User") = .ok ())
    (htx : getRawTransaction = .ok tx) (hc : tx.confirmations = some confs)
    (hc0 : confs ≠ 0) (hcm : ¬ confs < minConfs)
    (hclaim : buildClaimTapscript C template.payment_hash template.lp_pubkey = .ok cs)
    (hrefund : buildRefundTapscript C template.cltv_expiry template.user_pubkey = .ok rs)
    (hcs0 : cs.length ≠ 0) (hrs0 : rs.length ≠ 0)
    (hinc1 : strContains (lowerChars (bytesToHex cs))
      (lowerChars template.payment_hash.data) = true)
    (hinc2 : strContains (lowerChars (bytesToHex cs)) (getXOnlyHex template.lp_pubkey) = true)
    (hinc3 : strContains (lowerChars (bytesToHex rs)) (getXOnlyHex template.user_pubkey) = true)
    (hrec : reconstructP2TRScriptPubKey C template = .ok spk)
    (hout : getTransactionOutput = .ok output)
    (_hmismatch : bytesToHex spk ≠ output.scriptPubKeyHex.data)
    (hamount : round (output.value * 100000000) < (msatToSat invoiceAmountMsat : ℤ)) :
    verifyFundingTransaction C getRawTransaction getTransactionOutput fundingInfo template
      invoiceAmountMsat minConfs =
      .error (.amountTooLow (round (output.value * 100000000))
        (msatToSat invoiceAmountMsat)) := by
  have h := verify_amountTooLow_of C getRawTransaction getTransactionOutput fundingInfo
    template invoiceAmountMsat minConfs confs tx cs rs spk output hlp huser htx hc hc0 hcm
    hclaim hrefund hcs0 hrs0 hinc1 hinc2 hinc3 hrec hout
    (by rw [jsRound_mul1e8]; exact hamount)
  rw [jsRound_mul1e8] at h
  exact h

set_option maxRecDepth 10000 in
theorem verify_amount_checked_before_spk_witness :
    verifyFundingTransaction mockCrypto (.ok { confirmations := some 3 })
      (.ok { value := mkRat 19999 100000000, scriptPubKeyHex := wrongScriptPubKeyHex })
      { txid := "ff", vout := 0 } sampleTemplate 20000000 1 =
      .error (.amountTooLow (round ((mkRat 19999 100000000 : ℚ) * 100000000))
        (msatToSat 20000000)) :=
  verify_amount_checked_before_spk mockCrypto (.ok { confirmations := some 3 })
    (.ok { value := mkRat 19999 100000000, scriptPubKeyHex := wrongScriptPubKeyHex })
    { txid := "ff", vout := 0 } sampleTemplate 20000000 1 3 { confirmations := some 3 }
    ([168] ++ compilePush (hexToBytes samplePaymentHash.data) ++ [136] ++
      compilePush ((hexToBytes sampleLpPubkey.data).drop 1) ++ [172])
    (compilePush (scriptNumEncode (500000 : ℤ).toNat) ++ [177, 117] ++
      compilePush ((hexToBytes sampleUserPubkey.data).drop 1) ++ [172])
    (81 :: 32 :: List.replicate 32 2)
    { value := mkRat 19999 100000000, scriptPubKeyHex := wrongScriptPubKeyHex }
    rfl rfl rfl rfl (by decide) (by decide) rfl rfl (by decide) (by decide)
    (by decide) (by decide) (by decide) rfl rfl (by decide)
    (by rw [← jsRound_mul1e8]; decide)

/-- C5: with the fetched output in hand, the verifier converts its BTC
value with `round(value * 1e8)` and the invoice with
`ceil(msat / 1000)`, and fails with the insufficient-amount error
exactly when the former is below the latter (in particular 19999 sats
against a 20000000-msat invoice is rejected, and equality is
accepted). -/
theorem verify_amount_threshold (C : CryptoPrims)
    (getRawTransaction : Except String TxDetails) (getTransactionOutput : Except String TxOutput)
    (fundingInfo : FundingTransactionInfo) (template : P2TRHTLCTemplate)
    (invoiceAmountMsat : Nat) (minConfs confs : ℤ) (tx : TxDetails)
    (cs rs spk : List Nat) (output : TxOutput)
    (hlp : assertValidCompressedPubkey C template.lp_pubkey ("LP") = .ok ())
    (huser : assertValidCompressedPubkey C template.user_pubkey ("User") = .ok ())
    (htx : getRawTransaction = .ok tx) (hc : tx.confirmations = some confs)
    (hc0 : confs ≠ 0) (hcm : ¬ confs < minConfs)
    (hclaim : buildClaimTapscript C template.payment_hash template.lp_pubkey = .ok cs)
    (hrefund : buildRefundTapscript C template.cltv_expiry template.user_pubkey = .ok rs)
    (hcs0 : cs.length ≠ 0) (hrs0 : rs.length ≠ 0)
    (hinc1 : strContains (lowerChars (bytesToHex cs))
      (lowerChars template.payment_hash.data) = true)
    (hinc2 : strContains (lowerChars (bytesToHex cs)) (getXOnlyHex template.lp_pubkey) = true)
    (hinc3 : strContains (lowerChars (bytesToHex rs)) (getXOnlyHex template.user_pubkey) = true)
    (hrec : reconstructP2TRScriptPubKey C template = .ok spk)
    (hout : getTransactionOutput = .ok output) :
    (∃ a b, verifyFundingTransaction C getRawTransaction getTransactionOutput fundingInfo
        template invoiceAmountMsat minConfs = .error (.amountTooLow a b)) ↔
      round (output.value * 100000000) < ⌈((invoiceAmountMsat : ℚ) / 1000)⌉ := by
  simp only [verifyFundingTransaction, hlp, huser, htx, hc, hclaim, hrefund, hrec, hout,
    getTransactionOutputModel, Option.getD]
  rw [if_neg (by omega), if_neg (by omega), if_neg (by simp [hinc1]),
    if_neg (by simp [hinc2]), if_neg (by simp [hinc3])]
  by_cases hlt : jsRound (qMulConst 100000000 1 output.value) < (msatToSat invoiceAmountMsat : ℤ)
  · rw [if_pos hlt]
    constructor
    · intro _
      rw [← jsRound_mul1e8, ← msatToSat_eq_ceil]
      exact hlt
    · intro _
      exact ⟨_, _, rfl⟩
  · rw [if_neg hlt]
    constructor
    · rintro ⟨a, b, hab⟩
      split at hab
      · simp at hab
      · split at hab
        · simp at hab
        · simp at hab
    · intro hceil
      rw [← jsRound_mul1e8, ← msatToSat_eq_ceil] at hceil
      exact absurd hceil hlt

set_option maxRecDepth 10000 in
theorem verify_amount_threshold_witness :
    ∃ a b, verifyFundingTransaction mockCrypto (.ok { confirmations := some 3 })
      (.ok { value := mkRat 19999 100000000, scriptPubKeyHex := wrongScriptPubKeyHex })
      { txid := "ff", vout := 0 } sampleTemplate 20000000 1 =
      .error (.amountTooLow a b) :=
  (verify_amount_threshold mockCrypto (.ok { confirmations := some 3 })
    (.ok { value := mkRat 19999 100000000, scriptPubKeyHex := wrongScriptPubKeyHex })
    { txid := "ff", vout := 0 } sampleTemplate 20000000 1 3 { confirmations := some 3 }
    ([168] ++ compilePush (hexToBytes samplePaymentHash.data) ++ [136] ++
      compilePush ((hexToBytes sampleLpPubkey.data).drop 1) ++ [172])
    (compilePush (scriptNumEncode (500000 : ℤ).toNat) ++ [177, 117] ++
      compilePush ((hexToBytes sampleUserPubkey.data).drop 1) ++ [172])
    (81 :: 32 :: List.replicate 32 2)
    { value := mkRat 19999 100000000, scriptPubKeyHex := wrongScriptPubKeyHex }
    rfl rfl rfl rfl (by decide) (by decide) rfl rfl (by decide) (by decide)
    (by decide) (by decide) (by decide) rfl rfl).mpr
    (by rw [← jsRound_mul1e8, ← msatToSat_eq_ceil]; decide)

end ThunderSwap
